import Mathlib

/-
Verification development for the tunerkit-node SDK (src/index.ts).

The development shallowly embeds the dynamic-proxy call interceptor
(`TunerkitClient.createProxyHandler`), the session lifecycle
(`startSession`), the primary log dispatch (`_logToTunerkit`), the
simulation gate (`_runDevFlow`) and the Helicone logging sink
(`HeliconeLogger.log`).  JavaScript runtime values are modelled by the
inductive `JsVal`; wall-clock reads (`Date.now()`), the simulation
endpoint's reply, the wrapped method's behaviour, `JSON.parse` and the
transport outcomes of the fire-and-forget `fetch` calls are supplied as
an explicit environment (`CallEnv`).
-/

namespace Tunerkit

/-
JavaScript runtime values.  Objects are association lists of named
fields; `func id` is a callable leaf whose behaviour is looked up in the
call environment; `emitter chunks endArrival` is the chunked stream
object a streaming call returns (`endArrival` is the wall-clock instant
at which its completion signal fires).
-/
inductive JsVal where
  | undef
  | null
  | bool (b : Bool)
  | num (n : Int)
  | str (s : String)
  | obj (fields : List (String × JsVal))
  | func (id : Nat)
  | emitter (chunks : List String) (endArrival : Nat)

/- JavaScript truthiness, as used by `if (params.stream)`. -/
def isTruthy : JsVal → Bool
  | JsVal.undef => false
  | JsVal.null => false
  | JsVal.bool b => b
  | JsVal.num n => n != 0
  | JsVal.str s => s != ""
  | JsVal.obj _ => true
  | JsVal.func _ => true
  | JsVal.emitter _ _ => true

/- `v === null || v === undefined`: the values on which a property read
throws a TypeError. -/
def isNullish : JsVal → Bool
  | JsVal.undef => true
  | JsVal.null => true
  | _ => false

def JsVal.isFunc : JsVal → Bool
  | JsVal.func _ => true
  | _ => false

/- Errors the intercepted call can throw. -/
inductive JsError where
  | methodNotFound (path : String)
  | simulationFailed (status : Nat)
  | typeError (field : String)
  | thrown (e : JsVal)

/-
One step of the guarded reduction in `createProxyHandler.apply`
(src/index.ts lines 213-218):
`if (obj && typeof obj === 'object' && prop in obj) return obj[prop];
 return undefined;`
-/
def guardedStep (obj : JsVal) (prop : String) : JsVal :=
  match obj with
  | JsVal.obj fields =>
    match fields.lookup prop with
    | some v => v
    | none => JsVal.undef
  | _ => JsVal.undef

/- The full guarded `reduce` over the path segments. -/
def walkGuarded : JsVal → List String → JsVal
  | v, [] => v
  | v, s :: rest => walkGuarded (guardedStep v s) rest

/-
An unguarded JavaScript property read `obj[prop]` (used by the second
reduction at line 240): reading off `null`/`undefined` throws a
TypeError, primitives and functions yield `undefined`, objects look the
field up.
-/
def rawGet : JsVal → String → Except JsError JsVal
  | JsVal.undef, p => Except.error (JsError.typeError p)
  | JsVal.null, p => Except.error (JsError.typeError p)
  | JsVal.obj fields, p => Except.ok ((fields.lookup p).getD JsVal.undef)
  | _, _ => Except.ok JsVal.undef

/- The unguarded `reduce` of src/index.ts line 240. -/
def walkRaw : JsVal → List String → Except JsError JsVal
  | v, [] => Except.ok v
  | v, s :: rest =>
    match rawGet v s with
    | Except.ok v' => walkRaw v' rest
    | Except.error e => Except.error e

def consChar (c : Char) (s : String) : String := String.mk (c :: s.toList)

/- `propPath.split('.')` of JavaScript, on the character list. -/
def splitCharsOnDot : List Char → List String
  | [] => [""]
  | c :: rest =>
    match splitCharsOnDot rest with
    | [] => [""]
    | h :: t => if c = '.' then "" :: h :: t else consChar c h :: t

def splitPath (s : String) : List String := splitCharsOnDot s.toList

/- `methodParts.pop()`: splits a path into its leading segments and the
terminal method name (src/index.ts lines 238-239). -/
def splitLast : List String → List String × String
  | [] => ([], "")
  | [x] => ([], x)
  | x :: y :: rest =>
    let pr := splitLast (y :: rest)
    (x :: pr.1, pr.2)

/- The spec's resolvability condition: every path segment is present and
the terminal value is callable. -/
def resolvesToCallable : JsVal → List String → Bool
  | v, [] => v.isFunc
  | JsVal.obj fields, s :: rest =>
    match fields.lookup s with
    | some v' => resolvesToCallable v' rest
    | none => false
  | _, _ :: _ => false

/-
The per-instance session fields of `TunerkitClient` (src/index.ts lines
22-26), with the values assigned by the constructor (lines 44-48).
-/
structure SessionState where
  datasetId : String
  sessionType : String
  sessionId : String
  recordId : String
  sessionParentId : String
deriving DecidableEq, Repr

def initialSessionState : SessionState :=
  { datasetId := "", sessionType := "real", sessionId := "", recordId := "",
    sessionParentId := "" }

/- The construction-time configuration of a `TunerkitClient`. -/
structure ClientConfig where
  tunerkitApiKey : String
  baseURL : String
  hasLogger : Bool
deriving DecidableEq, Repr

/-
`TunerkitHeaders`: a wire header set whose values may be `undefined`
(`none`).  Field order follows the object literals in the source.
-/
abbrev HeaderMap := List (String × Option String)

/- The header object built at the top of `createProxyHandler.apply`
(src/index.ts lines 203-209): every field comes from the session state. -/
def sessionCallHeaders (st : SessionState) : HeaderMap :=
  [("Tunerkit-Dataset-Id", some st.datasetId),
   ("Tunerkit-Session-Id", some st.sessionId),
   ("Tunerkit-Record-Id", some st.recordId),
   ("Tunerkit-Session-Type", some st.sessionType),
   ("Tunerkit-Session-Parent-Id", some st.sessionParentId)]

/-
The filter in `_logToTunerkit` (lines 63-65):
`Object.entries(headers).filter(([_, value]) => value !== undefined)`.
Only `undefined` values are dropped; empty strings survive.
-/
def cleanHeaders (hs : HeaderMap) : List (String × String) :=
  hs.filterMap (fun kv => kv.2.map (fun v => (kv.1, v)))

structure TimePoint where
  seconds : Nat
  milliseconds : Nat
deriving DecidableEq, Repr

structure Timing where
  startTime : TimePoint
  endTime : TimePoint
deriving DecidableEq, Repr

/- `{seconds: Math.trunc(t / 1000), milliseconds: t % 1000}`. -/
def mkTimePoint (t : Nat) : TimePoint := { seconds := t / 1000, milliseconds := t % 1000 }

def mkTiming (s e : Nat) : Timing := { startTime := mkTimePoint s, endTime := mkTimePoint e }

/-
One `fetch` attempt of `_logToTunerkit` (lines 61-79): the POST to
`baseURL ++ "/api/logs"` with the fixed headers, the cleaned Tunerkit
headers and the body `{request, response, timing}`.
-/
structure LogWire where
  url : String
  headers : List (String × String)
  request : JsVal
  response : JsVal
  timing : Timing

def mkLogWire (cfg : ClientConfig) (request response : JsVal) (timing : Timing)
    (headers : HeaderMap) : LogWire :=
  { url := cfg.baseURL ++ "/api/logs",
    headers := ("Content-Type", "application/json") ::
      ("Authorization", "Bearer " ++ cfg.tunerkitApiKey) :: cleanHeaders headers,
    request := request, response := response, timing := timing }

/- The simulation endpoint's reply in `_runDevFlow` (lines 81-101):
`ok`/`status` of the HTTP response, and the parsed body
`{run_model, response}`. -/
structure SimReply where
  ok : Bool
  status : Nat
  runModel : Bool
  response : JsVal

/- What an underlying wrapped-client method does when invoked. -/
inductive MethodOutcome where
  | ret (v : JsVal)
  | exn (e : JsVal)

/-
The environment of one intercepted call: the simulation endpoint's
reply, each wrapped function's behaviour, `JSON.parse`, the wall-clock
readings returned by the `Date.now()` call sites, and whether the
fire-and-forget transports succeed.
-/
structure CallEnv where
  sim : SimReply
  beh : Nat → JsVal → MethodOutcome
  parse : String → Option JsVal
  tEntry1 : Nat
  tEntry2 : Nat
  tInvoke : Nat
  tReturn : Nat
  logFetchOk : Bool
  sinkFetchOk : Bool

/- How the caller's awaited promise ends: resolved, rejected, or never
settled. -/
inductive CallOutcome where
  | ret (v : JsVal)
  | err (e : JsError)
  | hang

/- The observable trace of one intercepted call. -/
structure CallResult where
  outcome : CallOutcome
  methodCalls : Nat
  simConsulted : Bool
  parseCalls : Nat
  tunerkitLogs : List LogWire
  sinkLogs : Nat
  diagnostics : Nat

def emptyResult : CallResult :=
  { outcome := CallOutcome.hang, methodCalls := 0, simConsulted := false,
    parseCalls := 0, tunerkitLogs := [], sinkLogs := 0, diagnostics := 0 }

/-
`HeliconeLogger.log` (lines 314-380): a falsy `params` is reported
without throwing; all record-building and transport failures inside the
`try` are caught and reported.  The returned number counts the locally
reported failures; the function never raises past its boundary.
-/
def heliconeLog (params response : JsVal) (transportOk : Bool) : Nat :=
  if isTruthy params = false then 1
  else if isNullish response then 1
  else if transportOk then 0 else 1

/-
The `_logToTunerkit` dispatch (fire and forget): record the wire
attempt; a transport failure is caught and reported to the console
(counted in `diagnostics`), never thrown.
-/
def addTunerkitLog (cfg : ClientConfig) (request response : JsVal) (timing : Timing)
    (headers : HeaderMap) (transportOk : Bool) (acc : CallResult) : CallResult :=
  { acc with
    tunerkitLogs := acc.tunerkitLogs ++ [mkLogWire cfg request response timing headers]
    diagnostics := acc.diagnostics + (if transportOk then 0 else 1) }

/-
The tail of `createProxyHandler.apply` (lines 288-299): if a logger is
attached, `self.logger.log({params, response, headers, meta:
response.meta, startTime, endTime})` is dispatched without await; the
unguarded `response.meta` read throws a TypeError when `response` is
`null`/`undefined`; then the call returns `response`.
-/
def finishLogger (cfg : ClientConfig) (params response : JsVal) (env : CallEnv)
    (acc : CallResult) : CallResult :=
  if cfg.hasLogger then
    match rawGet response "meta" with
    | Except.error e => { acc with outcome := CallOutcome.err e }
    | Except.ok _ =>
      { acc with
        outcome := CallOutcome.ret response
        sinkLogs := acc.sinkLogs + 1
        diagnostics := acc.diagnostics + heliconeLog params response env.sinkFetchOk }
  else
    { acc with outcome := CallOutcome.ret response }

/-
The `devResponse.run_model` branch of `createProxyHandler.apply`
(lines 237-286): re-resolve the parent object without guards, re-check
that the terminal member is callable, then run the method — streaming
result accumulation (lines 247-270) or plain await (lines 271-285) —
and fire the `_logToTunerkit` record.  In the streaming case the `end`
listener reads the clock, parses the accumulated text exactly once,
resolves the promise and then logs; a parse failure throws inside the
listener, so the promise never settles (`hang`) and no log is sent.
-/
def invokeReal (cfg : ClientConfig) (client : JsVal) (segs : List String)
    (propPath : String) (params : JsVal) (headers : HeaderMap) (env : CallEnv)
    (acc : CallResult) : CallResult :=
  match walkRaw client (splitLast segs).1 with
  | Except.error e => { acc with outcome := CallOutcome.err e }
  | Except.ok methodObject =>
    match rawGet methodObject (splitLast segs).2 with
    | Except.error e => { acc with outcome := CallOutcome.err e }
    | Except.ok m =>
      match m with
      | JsVal.func fid =>
        match rawGet params "stream" with
        | Except.error e => { acc with outcome := CallOutcome.err e }
        | Except.ok sflag =>
          if isTruthy sflag then
            match env.beh fid params with
            | MethodOutcome.exn e =>
              { acc with
                methodCalls := acc.methodCalls + 1
                outcome := CallOutcome.err (JsError.thrown e) }
            | MethodOutcome.ret (JsVal.emitter chunks endAt) =>
              match env.parse (chunks.foldl (fun a c => a ++ c) "") with
              | none =>
                { acc with
                  methodCalls := acc.methodCalls + 1
                  parseCalls := acc.parseCalls + 1
                  outcome := CallOutcome.hang }
              | some v =>
                finishLogger cfg params v env
                  (addTunerkitLog cfg params v (mkTiming env.tInvoke endAt)
                    headers env.logFetchOk
                    { acc with
                      methodCalls := acc.methodCalls + 1
                      parseCalls := acc.parseCalls + 1 })
            | MethodOutcome.ret _ =>
              { acc with
                methodCalls := acc.methodCalls + 1
                outcome := CallOutcome.err (JsError.typeError "on") }
          else
            match env.beh fid params with
            | MethodOutcome.exn e =>
              { acc with
                methodCalls := acc.methodCalls + 1
                outcome := CallOutcome.err (JsError.thrown e) }
            | MethodOutcome.ret v =>
              finishLogger cfg params v env
                (addTunerkitLog cfg params v (mkTiming env.tInvoke env.tReturn)
                  headers env.logFetchOk
                  { acc with methodCalls := acc.methodCalls + 1 })
      | _ => { acc with outcome := CallOutcome.err (JsError.methodNotFound propPath) }

/-
The `apply` trap of `createProxyHandler` (src/index.ts lines 201-300):
take `params` from the argument list (further arguments, including any
explicit per-call header object, are never read), build the headers
from the session state, resolve the dotted path against the wrapped
client passed in at call time, throw `MethodNotFound` when it does not
reach a callable, consult the simulation gate when the session type is
`test` (a non-ok reply is a thrown failure; `run_model: false`
substitutes the gate's response), otherwise invoke the real method.
-/
def applyProxy (cfg : ClientConfig) (st : SessionState) (client : JsVal)
    (propPath : String) (args : List JsVal) (env : CallEnv) : CallResult :=
  match walkGuarded client (splitPath propPath) with
  | JsVal.func _ =>
    if (st.sessionType == "test") && !env.sim.ok then
      { emptyResult with
        simConsulted := true
        outcome := CallOutcome.err (JsError.simulationFailed env.sim.status) }
    else if (if st.sessionType == "test" then env.sim.runModel else true) then
      invokeReal cfg client (splitPath propPath) propPath (args.headD JsVal.undef)
        (sessionCallHeaders st) env
        { emptyResult with simConsulted := (st.sessionType == "test") }
    else
      finishLogger cfg (args.headD JsVal.undef)
        (if st.sessionType == "test" then env.sim.response else JsVal.undef) env
        { emptyResult with simConsulted := (st.sessionType == "test") }
  | _ => { emptyResult with outcome := CallOutcome.err (JsError.methodNotFound propPath) }

/-
A lazily built interceptable node of `createProxyHandler` (lines
197-200): it carries only the dotted path; its `get` trap extends the
path with the sub-property name.  No reference into the wrapped client
is captured.
-/
structure ProxyNode where
  propPath : String
deriving DecidableEq, Repr

def ProxyNode.get (n : ProxyNode) (subProp : String) : ProxyNode :=
  { propPath := n.propPath ++ "." ++ subProp }

def ProxyNode.applyNode (n : ProxyNode) (cfg : ClientConfig) (st : SessionState)
    (client : JsVal) (args : List JsVal) (env : CallEnv) : CallResult :=
  applyProxy cfg st client n.propPath args env

/-
Property names for which the JavaScript check `prop in target` holds on
a `TunerkitClient` instance (src/index.ts line 53).  `in` walks the
prototype chain, so the set contains the fields assigned in the
constructor (lines 40-48), the members of `TunerkitClient.prototype`
(`constructor` and the class methods of lines 61-302), and the members
inherited from `Object.prototype`.
-/
def instanceProps : List String :=
  ["client", "tunerkitApiKey", "logger", "baseURL", "datasetId", "sessionType",
   "sessionId", "recordId", "sessionParentId",
   "constructor", "_logToTunerkit", "_runDevFlow", "tool", "startSession",
   "endSession", "createProxyHandler",
   "hasOwnProperty", "isPrototypeOf", "propertyIsEnumerable", "toLocaleString",
   "toString", "valueOf", "__defineGetter__", "__defineSetter__",
   "__lookupGetter__", "__lookupSetter__", "__proto__"]

/- What a property access on the constructor's `Proxy` yields. -/
inductive GetResult where
  | instanceMember (name : String)
  | proxyNode (n : ProxyNode)
deriving DecidableEq, Repr

/-
The `get` trap installed by the constructor (lines 51-58):
`if (prop in target) return target[prop];
 return self.createProxyHandler(prop);`
-/
def tunerkitGet (prop : String) : GetResult :=
  if prop ∈ instanceProps then GetResult.instanceMember prop
  else GetResult.proxyNode { propPath := prop }

/- `recordId || uuidv4()`: JavaScript `||` replaces both a missing and
an empty-string id with a fresh one. -/
def orFresh (given : Option String) (fresh : String) : String :=
  match given with
  | some s => if s = "" then fresh else s
  | none => fresh

structure StartResult where
  state : SessionState
  headers : HeaderMap
  log : LogWire
  logDiagnostics : Nat

/-
`startSession` (src/index.ts lines 151-181): default the record and
session ids, overwrite `datasetId`, `sessionId`, `recordId` and
`sessionType` on the instance (`sessionParentId` is not assigned),
build the header object, emit the `__START__` boundary record carrying
`{inputs}` through `_logToTunerkit` with both timing endpoints at the
current instant, and return the headers.  `freshRecordId` and
`freshSessionId` stand for the two `uuidv4()` draws, `tNow` for
`Date.now()`.
-/
def startSession (cfg : ClientConfig) (st : SessionState) (inputs : JsVal)
    (datasetId : String) (recordId0 sessionId0 parentId : Option String)
    (ty : String) (freshRecordId freshSessionId : String) (tNow : Nat)
    (logTransportOk : Bool) : StartResult :=
  let recordId := orFresh recordId0 freshRecordId
  let sessionId := orFresh sessionId0 freshSessionId
  let st' := { st with
               datasetId := datasetId
               sessionId := sessionId
               recordId := recordId
               sessionType := ty }
  let headers : HeaderMap :=
    [("Tunerkit-Dataset-Id", some datasetId),
     ("Tunerkit-Record-Id", some recordId),
     ("Tunerkit-Session-Id", some sessionId),
     ("Tunerkit-Session-Type", some ty),
     ("Tunerkit-Session-Parent-Id", parentId)]
  let wire := mkLogWire cfg (JsVal.obj [("inputs", inputs)]) (JsVal.obj [])
    (mkTiming tNow tNow) (headers ++ [("Tunerkit-Session-Path", some "__START__")])
  { state := st', headers := headers, log := wire,
    logDiagnostics := if logTransportOk then 0 else 1 }

/-
Modelled from the spec: the header merge the specification describes
for step 1 of the call protocol ("explicit headers take precedence for
fields they define; session fields fill gaps").  No such merge exists
in `createProxyHandler.apply`; this definition follows the spec's words
and is compared against the embedded code.
-/
def specMergeHeaders (session explicit : List (String × String)) :
    List (String × String) :=
  explicit ++ session.filter (fun kv => (explicit.lookup kv.1).isNone)

/- The full header list sent by `_logToTunerkit` for the headers built in
`createProxyHandler.apply`. -/
def tunerkitWireHeaders (cfg : ClientConfig) (st : SessionState) :
    List (String × String) :=
  ("Content-Type", "application/json") ::
    ("Authorization", "Bearer " ++ cfg.tunerkitApiKey) ::
      cleanHeaders (sessionCallHeaders st)

/- Concrete fixtures used by the witness and counterexample theorems. -/

def cfgPlain : ClientConfig :=
  { tunerkitApiKey := "k", baseURL := "https://api.tunerkit.dev", hasLogger := false }

def cfgWithLogger : ClientConfig := { cfgPlain with hasLogger := true }

def stReal : SessionState :=
  { datasetId := "d", sessionType := "real", sessionId := "sid", recordId := "rid",
    sessionParentId := "pid" }

def stTest : SessionState := { stReal with sessionType := "test" }

def clientOneF : JsVal := JsVal.obj [("f", JsVal.func 0)]

def behConst (v : JsVal) : Nat → JsVal → MethodOutcome := fun _ _ => MethodOutcome.ret v

def envBase : CallEnv :=
  { sim := { ok := true, status := 200, runModel := true, response := JsVal.undef },
    beh := behConst (JsVal.str "ok"),
    parse := fun _ => none,
    tEntry1 := 1000, tEntry2 := 1001, tInvoke := 2000, tReturn := 3000,
    logFetchOk := true, sinkFetchOk := true }

def envSimNull : CallEnv :=
  { envBase with sim := { ok := true, status := 200, runModel := false, response := JsVal.null } }

def envSimStr : CallEnv :=
  { envBase with sim := { ok := true, status := 200, runModel := false, response := JsVal.str "R" } }

def envSimDown : CallEnv :=
  { envBase with sim := { ok := false, status := 500, runModel := true, response := JsVal.undef } }

def envStreamNull : CallEnv :=
  { envBase with
    beh := behConst (JsVal.emitter ["nu", "ll"] 7000)
    parse := fun s => if s = "null" then some JsVal.null else none }

def envStreamOk : CallEnv :=
  { envBase with
    beh := behConst (JsVal.emitter ["ab", "cd"] 7000)
    parse := fun s => if s = "abcd" then some (JsVal.str "v") else none }

def envStreamBad : CallEnv :=
  { envBase with beh := behConst (JsVal.emitter ["nope"] 7000) }

def argsPlain : List JsVal := [JsVal.obj []]

def argsExplicitHeaders : List JsVal :=
  [JsVal.obj [], JsVal.obj [("Tunerkit-Session-Id", JsVal.str "ex")]]

def argsStream : List JsVal := [JsVal.obj [("stream", JsVal.bool true)]]

/- Supporting lemmas. -/

theorem splitCharsOnDot_ne_nil (cs : List Char) : splitCharsOnDot cs ≠ [] := by
  induction cs with
  | nil => simp [splitCharsOnDot]
  | cons c rest ih =>
    simp only [splitCharsOnDot]
    cases h : splitCharsOnDot rest with
    | nil => simp
    | cons hd tl =>
      by_cases hc : c = '.' <;> simp [hc]

theorem splitPath_ne_nil (s : String) : splitPath s ≠ [] :=
  splitCharsOnDot_ne_nil s.toList

theorem walkGuarded_undef (segs : List String) :
    walkGuarded JsVal.undef segs = JsVal.undef := by
  induction segs with
  | nil => rfl
  | cons s rest ih => simpa [walkGuarded, guardedStep] using ih

theorem resolvesToCallable_eq_walk (segs : List String) (v : JsVal) :
    resolvesToCallable v segs = (walkGuarded v segs).isFunc := by
  induction segs generalizing v with
  | nil => cases v <;> rfl
  | cons s rest ih =>
    cases v with
    | obj fields =>
      cases h : fields.lookup s with
      | some v' =>
        simp [resolvesToCallable, walkGuarded, guardedStep, h, ih]
      | none =>
        simp [resolvesToCallable, walkGuarded, guardedStep, h, walkGuarded_undef,
          JsVal.isFunc]
    | undef =>
      simp [resolvesToCallable, walkGuarded, guardedStep, walkGuarded_undef, JsVal.isFunc]
    | null =>
      simp [resolvesToCallable, walkGuarded, guardedStep, walkGuarded_undef, JsVal.isFunc]
    | bool b =>
      simp [resolvesToCallable, walkGuarded, guardedStep, walkGuarded_undef, JsVal.isFunc]
    | num n =>
      simp [resolvesToCallable, walkGuarded, guardedStep, walkGuarded_undef, JsVal.isFunc]
    | str t =>
      simp [resolvesToCallable, walkGuarded, guardedStep, walkGuarded_undef, JsVal.isFunc]
    | func fid =>
      simp [resolvesToCallable, walkGuarded, guardedStep, walkGuarded_undef, JsVal.isFunc]
    | emitter cs t =>
      simp [resolvesToCallable, walkGuarded, guardedStep, walkGuarded_undef, JsVal.isFunc]

theorem guardedStep_func (v : JsVal) (s : String) (fid : Nat)
    (h : guardedStep v s = JsVal.func fid) :
    rawGet v s = Except.ok (JsVal.func fid) := by
  cases v <;> simp [guardedStep] at h
  case obj fields =>
    cases hl : fields.lookup s with
    | some v' =>
      rw [hl] at h
      simp only [] at h
      simp [rawGet, hl, h]
    | none =>
      rw [hl] at h
      simp at h

theorem guardedStep_ne_undef (v : JsVal) (s : String)
    (h : guardedStep v s ≠ JsVal.undef) :
    rawGet v s = Except.ok (guardedStep v s) := by
  cases v <;> simp [guardedStep] at h ⊢
  case obj fields =>
    cases hl : fields.lookup s with
    | some v' => simp [rawGet, hl]
    | none => rw [hl] at h; exact absurd rfl h

theorem walk_split (segs : List String) (v : JsVal) (fid : Nat) (h0 : segs ≠ [])
    (h : walkGuarded v segs = JsVal.func fid) :
    ∃ parent, walkRaw v (splitLast segs).1 = Except.ok parent ∧
      rawGet parent (splitLast segs).2 = Except.ok (JsVal.func fid) := by
  induction segs generalizing v with
  | nil => exact absurd rfl h0
  | cons s rest ih =>
    cases rest with
    | nil =>
      have h' : guardedStep v s = JsVal.func fid := by
        simpa [walkGuarded] using h
      exact ⟨v, rfl, guardedStep_func v s fid h'⟩
    | cons s2 rest2 =>
      have h' : walkGuarded (guardedStep v s) (s2 :: rest2) = JsVal.func fid := by
        simpa [walkGuarded] using h
      by_cases hu : guardedStep v s = JsVal.undef
      · rw [hu, walkGuarded_undef] at h'
        exact absurd h' (by simp)
      · obtain ⟨parent, hp, hg⟩ := ih (guardedStep v s) (by simp) h'
        refine ⟨parent, ?_, ?_⟩
        · simp [splitLast, walkRaw, guardedStep_ne_undef v s hu, hp]
        · simpa [splitLast] using hg

theorem finishLogger_tunerkitLogs (cfg : ClientConfig) (params response : JsVal)
    (env : CallEnv) (acc : CallResult) :
    (finishLogger cfg params response env acc).tunerkitLogs = acc.tunerkitLogs := by
  unfold finishLogger
  cases cfg.hasLogger with
  | false => rfl
  | true => cases rawGet response "meta" <;> rfl

theorem finishLogger_methodCalls (cfg : ClientConfig) (params response : JsVal)
    (env : CallEnv) (acc : CallResult) :
    (finishLogger cfg params response env acc).methodCalls = acc.methodCalls := by
  unfold finishLogger
  cases cfg.hasLogger with
  | false => rfl
  | true => cases rawGet response "meta" <;> rfl

theorem finishLogger_parseCalls (cfg : ClientConfig) (params response : JsVal)
    (env : CallEnv) (acc : CallResult) :
    (finishLogger cfg params response env acc).parseCalls = acc.parseCalls := by
  unfold finishLogger
  cases cfg.hasLogger with
  | false => rfl
  | true => cases rawGet response "meta" <;> rfl

theorem rawGet_error_typeError (v : JsVal) (p : String) (e : JsError)
    (h : rawGet v p = Except.error e) : e = JsError.typeError p := by
  cases v <;> simp [rawGet] at h <;> exact h.symm

theorem invokeReal_logs (cfg : ClientConfig) (client : JsVal) (segs : List String)
    (propPath : String) (params : JsVal) (headers : HeaderMap) (env : CallEnv)
    (acc : CallResult) :
    (invokeReal cfg client segs propPath params headers env acc).tunerkitLogs =
      acc.tunerkitLogs ∨
    ∃ resp timing,
      (invokeReal cfg client segs propPath params headers env acc).tunerkitLogs =
        acc.tunerkitLogs ++ [mkLogWire cfg params resp timing headers] := by
  unfold invokeReal
  cases hw : walkRaw client (splitLast segs).1 with
  | error e => exact Or.inl rfl
  | ok methodObject =>
    dsimp only
    cases hg : rawGet methodObject (splitLast segs).2 with
    | error e => exact Or.inl rfl
    | ok m =>
      dsimp only
      cases m with
      | func fid =>
        dsimp only
        cases hs : rawGet params "stream" with
        | error e => exact Or.inl rfl
        | ok sflag =>
          dsimp only
          cases ht : isTruthy sflag with
          | true =>
            cases hb : env.beh fid params with
            | exn e => exact Or.inl rfl
            | ret v =>
              cases v with
              | emitter chunks endAt =>
                dsimp only
                cases hp : env.parse (chunks.foldl (fun a c => a ++ c) "") with
                | none => exact Or.inl rfl
                | some v2 =>
                  refine Or.inr ⟨v2, mkTiming env.tInvoke endAt, ?_⟩
                  simp [finishLogger_tunerkitLogs, addTunerkitLog]
              | undef => exact Or.inl rfl
              | null => exact Or.inl rfl
              | bool b => exact Or.inl rfl
              | num n => exact Or.inl rfl
              | str s => exact Or.inl rfl
              | obj fields => exact Or.inl rfl
              | func fid2 => exact Or.inl rfl
          | false =>
            cases hb : env.beh fid params with
            | exn e => exact Or.inl rfl
            | ret v =>
              refine Or.inr ⟨v, mkTiming env.tInvoke env.tReturn, ?_⟩
              simp [finishLogger_tunerkitLogs, addTunerkitLog]
      | undef => exact Or.inl rfl
      | null => exact Or.inl rfl
      | bool b => exact Or.inl rfl
      | num n => exact Or.inl rfl
      | str s => exact Or.inl rfl
      | obj fields => exact Or.inl rfl
      | emitter chunks endAt => exact Or.inl rfl

theorem applyProxy_log_headers (cfg : ClientConfig) (st : SessionState) (client : JsVal)
    (propPath : String) (args : List JsVal) (env : CallEnv) :
    (applyProxy cfg st client propPath args env).tunerkitLogs.map (fun w => w.headers) =
      List.replicate (applyProxy cfg st client propPath args env).tunerkitLogs.length
        (tunerkitWireHeaders cfg st) := by
  unfold applyProxy
  cases hw : walkGuarded client (splitPath propPath) with
  | func fid =>
    dsimp only
    by_cases hdev : ((st.sessionType == "test") && !env.sim.ok) = true
    · rw [if_pos hdev]
      rfl
    · rw [if_neg hdev]
      by_cases hrun : (if st.sessionType == "test" then env.sim.runModel else true) = true
      · rw [if_pos hrun]
        rcases invokeReal_logs cfg client (splitPath propPath) propPath
            (args.headD JsVal.undef) (sessionCallHeaders st) env
            { emptyResult with simConsulted := (st.sessionType == "test") } with h | ⟨resp, timing, h⟩
        · rw [h]; rfl
        · rw [h]
          simp [emptyResult, mkLogWire, tunerkitWireHeaders]
      · rw [if_neg hrun]
        rw [finishLogger_tunerkitLogs]
        rfl
  | undef => rfl
  | null => rfl
  | bool b => rfl
  | num n => rfl
  | str s => rfl
  | obj fields => rfl
  | emitter chunks endAt => rfl

theorem cleanHeaders_mem (hs : HeaderMap) (k v : String) :
    (k, v) ∈ cleanHeaders hs ↔ (k, some v) ∈ hs := by
  simp only [cleanHeaders, List.mem_filterMap]
  constructor
  · rintro ⟨⟨k', ov⟩, hmem, heq⟩
    cases ov with
    | none => simp at heq
    | some v' =>
      simp only [Option.map_some', Option.some.injEq, Prod.mk.injEq] at heq
      obtain ⟨hk, hv⟩ := heq
      subst hk
      subst hv
      exact hmem
  · intro hmem
    exact ⟨(k, some v), hmem, rfl⟩

theorem isFunc_exists (v : JsVal) (h : v.isFunc = true) :
    ∃ fid, v = JsVal.func fid := by
  cases v <;> first | exact ⟨_, rfl⟩ | simp [JsVal.isFunc] at h

theorem walkRaw_error_typeError (l : List String) (v : JsVal) (e : JsError)
    (h : walkRaw v l = Except.error e) : ∃ p, e = JsError.typeError p := by
  induction l generalizing v with
  | nil => simp [walkRaw] at h
  | cons s rest ih =>
    simp only [walkRaw] at h
    cases hg : rawGet v s with
    | error e2 =>
      rw [hg] at h
      dsimp only at h
      injection h with h2
      exact ⟨s, by rw [← h2]; exact rawGet_error_typeError v s e2 hg⟩
    | ok v2 =>
      rw [hg] at h
      dsimp only at h
      exact ih v2 h

theorem finishLogger_outcome_ret (cfg : ClientConfig) (params response : JsVal)
    (env : CallEnv) (acc : CallResult)
    (h : cfg.hasLogger = false ∨ isNullish response = false) :
    (finishLogger cfg params response env acc).outcome = CallOutcome.ret response := by
  unfold finishLogger
  cases hb : cfg.hasLogger with
  | false => rfl
  | true =>
    rcases h with h | h
    · rw [hb] at h; exact Bool.noConfusion h
    · cases response with
      | undef => simp [isNullish] at h
      | null => simp [isNullish] at h
      | bool b => rfl
      | num n => rfl
      | str s => rfl
      | obj fields => rfl
      | func fid => rfl
      | emitter cs t => rfl

theorem finishLogger_outcome_meta_err (cfg : ClientConfig) (params response : JsVal)
    (env : CallEnv) (acc : CallResult)
    (hl : cfg.hasLogger = true) (hn : isNullish response = true) :
    (finishLogger cfg params response env acc).outcome =
      CallOutcome.err (JsError.typeError "meta") := by
  unfold finishLogger
  rw [hl]
  cases response <;> simp [isNullish] at hn <;> rfl

theorem finishLogger_outcome_cases (cfg : ClientConfig) (params response : JsVal)
    (env : CallEnv) (acc : CallResult) :
    (finishLogger cfg params response env acc).outcome = CallOutcome.ret response ∨
    (finishLogger cfg params response env acc).outcome =
      CallOutcome.err (JsError.typeError "meta") := by
  unfold finishLogger
  cases hb : cfg.hasLogger with
  | false => exact Or.inl rfl
  | true =>
    cases hr : rawGet response "meta" with
    | error e =>
      right
      dsimp only
      rw [rawGet_error_typeError response "meta" e hr]
      rfl
    | ok m => exact Or.inl rfl

theorem finishLogger_outcome_indep (cfg : ClientConfig) (params response : JsVal)
    (env env' : CallEnv) (acc acc' : CallResult) :
    (finishLogger cfg params response env acc).outcome =
      (finishLogger cfg params response env' acc').outcome := by
  unfold finishLogger
  cases cfg.hasLogger with
  | false => rfl
  | true => cases rawGet response "meta" <;> rfl

/- The three reachable shapes of `createProxyHandler.apply` after a
successful path resolution: simulation failure, simulation skip, and
real invocation. -/

theorem applyProxy_simfail_eq (cfg : ClientConfig) (st : SessionState) (client : JsVal)
    (propPath : String) (args : List JsVal) (env : CallEnv) (fid : Nat)
    (hfid : walkGuarded client (splitPath propPath) = JsVal.func fid)
    (hdev : st.sessionType = "test") (hok : env.sim.ok = false) :
    applyProxy cfg st client propPath args env =
      { emptyResult with
        simConsulted := true
        outcome := CallOutcome.err (JsError.simulationFailed env.sim.status) } := by
  unfold applyProxy
  rw [hfid]
  dsimp only
  rw [if_pos (show ((st.sessionType == "test") && !env.sim.ok) = true by
    rw [hdev, hok]; rfl)]

theorem applyProxy_skip_eq (cfg : ClientConfig) (st : SessionState) (client : JsVal)
    (propPath : String) (args : List JsVal) (env : CallEnv) (fid : Nat)
    (hfid : walkGuarded client (splitPath propPath) = JsVal.func fid)
    (hdev : st.sessionType = "test") (hok : env.sim.ok = true)
    (hrm : env.sim.runModel = false) :
    applyProxy cfg st client propPath args env =
      finishLogger cfg (args.headD JsVal.undef) env.sim.response env
        { emptyResult with simConsulted := true } := by
  unfold applyProxy
  rw [hfid]
  dsimp only
  rw [if_neg (show ¬ ((st.sessionType == "test") && !env.sim.ok) = true by
    rw [hdev, hok]; simp)]
  rw [if_neg (show ¬ (if st.sessionType == "test" then env.sim.runModel else true) = true by
    rw [hdev, hrm]; simp)]
  rw [show (st.sessionType == "test") = true by rw [hdev]; rfl]
  rfl

theorem applyProxy_runModel_eq (cfg : ClientConfig) (st : SessionState) (client : JsVal)
    (propPath : String) (args : List JsVal) (env : CallEnv) (fid : Nat)
    (hfid : walkGuarded client (splitPath propPath) = JsVal.func fid)
    (hgate : st.sessionType = "test" → env.sim.ok = true ∧ env.sim.runModel = true) :
    applyProxy cfg st client propPath args env =
      invokeReal cfg client (splitPath propPath) propPath (args.headD JsVal.undef)
        (sessionCallHeaders st) env
        { emptyResult with simConsulted := (st.sessionType == "test") } := by
  unfold applyProxy
  rw [hfid]
  dsimp only
  by_cases hd : st.sessionType = "test"
  · obtain ⟨hok, hrm⟩ := hgate hd
    rw [if_neg (show ¬ ((st.sessionType == "test") && !env.sim.ok) = true by
      rw [hd, hok]; simp)]
    rw [if_pos (show (if st.sessionType == "test" then env.sim.runModel else true) = true by
      rw [hd, hrm]; rfl)]
  · have hb : (st.sessionType == "test") = false := by
      simp [hd]
    rw [if_neg (show ¬ ((st.sessionType == "test") && !env.sim.ok) = true by
      rw [hb]; simp)]
    rw [if_pos (show (if st.sessionType == "test" then env.sim.runModel else true) = true by
      rw [hb]; rfl)]

theorem invokeReal_stream_eq (cfg : ClientConfig) (client : JsVal) (segs : List String)
    (propPath : String) (params : JsVal) (headers : HeaderMap) (env : CallEnv)
    (acc : CallResult) (parent : JsVal) (fid : Nat) (sflag : JsVal)
    (chunks : List String) (endAt : Nat) (v : JsVal)
    (hp1 : walkRaw client (splitLast segs).1 = Except.ok parent)
    (hp2 : rawGet parent (splitLast segs).2 = Except.ok (JsVal.func fid))
    (hsf : rawGet params "stream" = Except.ok sflag)
    (htr : isTruthy sflag = true)
    (hbeh : env.beh fid params = MethodOutcome.ret (JsVal.emitter chunks endAt))
    (hpar : env.parse (chunks.foldl (fun a c => a ++ c) "") = some v) :
    invokeReal cfg client segs propPath params headers env acc =
      finishLogger cfg params v env
        (addTunerkitLog cfg params v (mkTiming env.tInvoke endAt) headers env.logFetchOk
          { acc with
            methodCalls := acc.methodCalls + 1
            parseCalls := acc.parseCalls + 1 }) := by
  unfold invokeReal
  rw [hp1]
  try dsimp only
  rw [hp2]
  try dsimp only
  rw [hsf]
  try dsimp only
  rw [htr]
  try dsimp only
  rw [hbeh]
  try dsimp only
  rw [hpar]
  rfl

theorem finishLogger_outcome_not_mnf (cfg : ClientConfig) (params response : JsVal)
    (env : CallEnv) (acc : CallResult) (q : String) :
    (finishLogger cfg params response env acc).outcome ≠
      CallOutcome.err (JsError.methodNotFound q) := by
  rcases finishLogger_outcome_cases cfg params response env acc with hoc | hoc <;>
    rw [hoc] <;> intro h
  · exact CallOutcome.noConfusion h
  · injection h with h2
    exact JsError.noConfusion h2

theorem applyProxy_not_mnf (cfg : ClientConfig) (st : SessionState) (client : JsVal)
    (propPath : String) (args : List JsVal) (env : CallEnv) (fid : Nat) (q : String)
    (hfid : walkGuarded client (splitPath propPath) = JsVal.func fid) :
    (applyProxy cfg st client propPath args env).outcome ≠
      CallOutcome.err (JsError.methodNotFound q) := by
  obtain ⟨parent, hp1, hp2⟩ := walk_split (splitPath propPath) client fid
    (splitPath_ne_nil propPath) hfid
  unfold applyProxy
  rw [hfid]
  try dsimp only
  by_cases hdev : ((st.sessionType == "test") && !env.sim.ok) = true
  · rw [if_pos hdev]
    intro h
    injection h with h2
    exact JsError.noConfusion h2
  · rw [if_neg hdev]
    by_cases hrun : (if st.sessionType == "test" then env.sim.runModel else true) = true
    · rw [if_pos hrun]
      unfold invokeReal
      rw [hp1]
      try dsimp only
      rw [hp2]
      try dsimp only
      cases hsf : rawGet (args.headD JsVal.undef) "stream" with
      | error e =>
        have he := rawGet_error_typeError _ _ _ hsf
        try dsimp only
        intro h
        injection h with h2
        rw [he] at h2
        exact JsError.noConfusion h2
      | ok sflag =>
        try dsimp only
        cases ht : isTruthy sflag with
        | true =>
          try dsimp only
          cases hb : env.beh fid (args.headD JsVal.undef) with
          | exn e =>
            try dsimp only
            intro h
            injection h with h2
            exact JsError.noConfusion h2
          | ret v =>
            cases v with
            | emitter chunks endAt =>
              try dsimp only
              cases hpar : env.parse (chunks.foldl (fun a c => a ++ c) "") with
              | none =>
                try dsimp only
                intro h
                exact CallOutcome.noConfusion h
              | some v2 =>
                try dsimp only
                exact finishLogger_outcome_not_mnf _ _ _ _ _ _
            | undef =>
              try dsimp only
              intro h
              injection h with h2
              exact JsError.noConfusion h2
            | null =>
              try dsimp only
              intro h
              injection h with h2
              exact JsError.noConfusion h2
            | bool b =>
              try dsimp only
              intro h
              injection h with h2
              exact JsError.noConfusion h2
            | num n =>
              try dsimp only
              intro h
              injection h with h2
              exact JsError.noConfusion h2
            | str s =>
              try dsimp only
              intro h
              injection h with h2
              exact JsError.noConfusion h2
            | obj fields =>
              try dsimp only
              intro h
              injection h with h2
              exact JsError.noConfusion h2
            | func fid2 =>
              try dsimp only
              intro h
              injection h with h2
              exact JsError.noConfusion h2
        | false =>
          try dsimp only
          cases hb : env.beh fid (args.headD JsVal.undef) with
          | exn e =>
            try dsimp only
            intro h
            injection h with h2
            exact JsError.noConfusion h2
          | ret v =>
            try dsimp only
            exact finishLogger_outcome_not_mnf _ _ _ _ _ _
    · rw [if_neg hrun]
      exact finishLogger_outcome_not_mnf _ _ _ _ _ _

/- Claim theorems. -/

/-- Claim C2 (amended): the dynamic proxy ignores the explicit per-call
headers argument; the headers sent with every instrumentation record of
a proxied call are exactly the session-derived wire headers, whatever
the argument list contains.  No merge with explicit headers happens. -/
theorem c2_headers_session_only (cfg : ClientConfig) (st : SessionState)
    (client : JsVal) (propPath : String) (args : List JsVal) (env : CallEnv) :
    (applyProxy cfg st client propPath args env).tunerkitLogs.map (fun w => w.headers) =
      List.replicate (applyProxy cfg st client propPath args env).tunerkitLogs.length
        (tunerkitWireHeaders cfg st) :=
  applyProxy_log_headers cfg st client propPath args env

/-- Claim C2 counterexample: a call passing the explicit header
`Tunerkit-Session-Id: ex` transmits the session value `sid` instead;
the spec's merge would have transmitted `ex`, so the sent headers are
not the claimed merge. -/
theorem c2_merge_cex :
    ((applyProxy cfgPlain stReal clientOneF "f" argsExplicitHeaders envBase).tunerkitLogs.map
      (fun w => w.headers.lookup "Tunerkit-Session-Id")) = [some "sid"] ∧
    (specMergeHeaders (cleanHeaders (sessionCallHeaders stReal))
      [("Tunerkit-Session-Id", "ex")]).lookup "Tunerkit-Session-Id" = some "ex" ∧
    (some "sid" : Option String) ≠ some "ex" :=
  ⟨rfl, rfl, by decide⟩

/-- Claim C8 (amended): `startSession` replaces a missing (or empty)
recordId and sessionId with the freshly generated identifiers, stores
datasetId, sessionId, recordId and sessionType as the active session
context while leaving `sessionParentId` unchanged (the supplied parentId
is not stored), emits a boundary record tagged `__START__` carrying the
inputs, and returns the header set (without the path marker). -/
theorem c8_startSession (cfg : ClientConfig) (st : SessionState) (inputs : JsVal)
    (datasetId : String) (recordId0 sessionId0 parentId : Option String)
    (ty freshR freshS : String) (tNow : Nat) (lok : Bool) :
    (startSession cfg st inputs datasetId recordId0 sessionId0 parentId ty freshR
        freshS tNow lok).state =
      { datasetId := datasetId, sessionType := ty,
        sessionId := orFresh sessionId0 freshS, recordId := orFresh recordId0 freshR,
        sessionParentId := st.sessionParentId } ∧
    (startSession cfg st inputs datasetId recordId0 sessionId0 parentId ty freshR
        freshS tNow lok).headers =
      [("Tunerkit-Dataset-Id", some datasetId),
       ("Tunerkit-Record-Id", some (orFresh recordId0 freshR)),
       ("Tunerkit-Session-Id", some (orFresh sessionId0 freshS)),
       ("Tunerkit-Session-Type", some ty),
       ("Tunerkit-Session-Parent-Id", parentId)] ∧
    (startSession cfg st inputs datasetId recordId0 sessionId0 parentId ty freshR
        freshS tNow lok).log.request = JsVal.obj [("inputs", inputs)] ∧
    (startSession cfg st inputs datasetId recordId0 sessionId0 parentId ty freshR
        freshS tNow lok).log.headers.lookup "Tunerkit-Session-Path" = some "__START__" ∧
    (startSession cfg st inputs datasetId recordId0 sessionId0 parentId ty freshR
        freshS tNow lok).log.timing = mkTiming tNow tNow ∧
    (startSession cfg st inputs datasetId recordId0 sessionId0 parentId ty freshR
        freshS tNow lok).headers.lookup "Tunerkit-Session-Path" = none := by
  refine ⟨rfl, rfl, rfl, ?_, rfl, rfl⟩
  cases parentId <;> rfl

/-- Claim C8 counterexample: `startSession` called with parentId "p"
leaves the stored session context's `sessionParentId` at its previous
value "" (the parentId appears only in the returned headers), so not
all supplied fields are stored. -/
theorem c8_parent_not_stored_cex :
    (startSession cfgPlain initialSessionState (JsVal.str "in") "d" none none
        (some "p") "real" "fr" "fs" 5000 true).state.sessionParentId = "" ∧
    (startSession cfgPlain initialSessionState (JsVal.str "in") "d" none none
        (some "p") "real" "fr" "fs" 5000 true).headers.lookup
        "Tunerkit-Session-Parent-Id" = some (some "p") ∧
    ("" : String) ≠ "p" :=
  ⟨rfl, rfl, by decide⟩

/-- Claim C9 (amended): `_logToTunerkit` omits exactly the
`undefined`-valued header fields — a field survives cleaning iff it was
present with a defined value — but a proxied call made before any
session is started still transmits all five correlation headers with
empty-string (or default "real") values, because the constructor
initialises the session fields to empty strings, not `undefined`. -/
theorem c9_header_omission :
    (∀ (hs : HeaderMap) (k v : String), (k, v) ∈ cleanHeaders hs ↔ (k, some v) ∈ hs) ∧
    (∀ cfg : ClientConfig, tunerkitWireHeaders cfg initialSessionState =
      [("Content-Type", "application/json"),
       ("Authorization", "Bearer " ++ cfg.tunerkitApiKey),
       ("Tunerkit-Dataset-Id", ""), ("Tunerkit-Session-Id", ""),
       ("Tunerkit-Record-Id", ""), ("Tunerkit-Session-Type", "real"),
       ("Tunerkit-Session-Parent-Id", "")]) :=
  ⟨cleanHeaders_mem, fun _ => rfl⟩

/-- Claim C9 counterexample: a proxied call on a freshly constructed
client (no session started) sends its instrumentation record with the
correlation header `Tunerkit-Session-Id` present and empty-valued. -/
theorem c9_empty_headers_cex :
    ((applyProxy cfgPlain initialSessionState clientOneF "f" argsPlain
        envBase).tunerkitLogs.map
      (fun w => w.headers.lookup "Tunerkit-Session-Id")) = [some ""] :=
  rfl

/-- Claim C10: a property access on the constructor's proxy returns the
instance member directly for every name that exists on the
TunerkitClient instance — the names satisfying `prop in target`, i.e.
the constructor-assigned fields, the class prototype's members and the
names inherited from Object.prototype — and a lazily-built
interceptable node for every other name; hence a wrapped-client member
whose name collides with any of those is unreachable through the
proxy. -/
theorem c10_instance_shadowing (p : String) :
    (p ∈ instanceProps → tunerkitGet p = GetResult.instanceMember p) ∧
    (p ∉ instanceProps → tunerkitGet p = GetResult.proxyNode { propPath := p }) := by
  refine ⟨fun h => ?_, fun h => ?_⟩ <;> simp [tunerkitGet, h]

/-- Claim C10 witness: `startSession` (class method) and `toString`
(inherited from Object.prototype) resolve to the instance member, never
a proxy node, while `chat` resolves to an interceptable node. -/
theorem c10_witness :
    tunerkitGet "startSession" = GetResult.instanceMember "startSession" ∧
    tunerkitGet "toString" = GetResult.instanceMember "toString" ∧
    tunerkitGet "chat" = GetResult.proxyNode { propPath := "chat" } :=
  ⟨(c10_instance_shadowing "startSession").1 (by decide),
   (c10_instance_shadowing "toString").1 (by decide),
   (c10_instance_shadowing "chat").2 (by decide)⟩

/-- Claim C1 (amended): in dev mode (session type "test"), when the
simulation endpoint replies ok with `run_model: false` and response R,
the underlying wrapped method is never invoked and the caller receives
exactly R — except that when a logging sink is attached and R is null or
undefined, building the sink record reads `R.meta`, and the caller
receives that TypeError instead of R. -/
theorem c1_sim_short_circuit (cfg : ClientConfig) (st : SessionState) (client : JsVal)
    (propPath : String) (args : List JsVal) (env : CallEnv) (fid : Nat)
    (hfid : walkGuarded client (splitPath propPath) = JsVal.func fid)
    (hdev : st.sessionType = "test") (hok : env.sim.ok = true)
    (hrm : env.sim.runModel = false) :
    (applyProxy cfg st client propPath args env).methodCalls = 0 ∧
    ((cfg.hasLogger = false ∨ isNullish env.sim.response = false) →
      (applyProxy cfg st client propPath args env).outcome =
        CallOutcome.ret env.sim.response) ∧
    (cfg.hasLogger = true → isNullish env.sim.response = true →
      (applyProxy cfg st client propPath args env).outcome =
        CallOutcome.err (JsError.typeError "meta")) := by
  rw [applyProxy_skip_eq cfg st client propPath args env fid hfid hdev hok hrm]
  refine ⟨?_, ?_, ?_⟩
  · rw [finishLogger_methodCalls]
    rfl
  · intro hcase
    exact finishLogger_outcome_ret cfg (args.headD JsVal.undef) env.sim.response env
      { emptyResult with simConsulted := true } hcase
  · intro hl hn
    exact finishLogger_outcome_meta_err cfg (args.headD JsVal.undef) env.sim.response env
      { emptyResult with simConsulted := true } hl hn

/-- Claim C1 witness: without a logging sink, a dev-mode call whose
simulation gate replies `run_model: false, response: "R"` returns
exactly "R" and never invokes the wrapped method. -/
theorem c1_witness :
    (applyProxy cfgPlain stTest clientOneF "f" argsPlain envSimStr).outcome =
      CallOutcome.ret (JsVal.str "R") ∧
    (applyProxy cfgPlain stTest clientOneF "f" argsPlain envSimStr).methodCalls = 0 := by
  have h := c1_sim_short_circuit cfgPlain stTest clientOneF "f" argsPlain envSimStr 0
    rfl rfl rfl rfl
  exact ⟨h.2.1 (Or.inl rfl), h.1⟩

/-- Claim C1 counterexample: with a logging sink attached and the
simulation gate replying `run_model: false, response: null`, the wrapped
method is never invoked but the caller receives a TypeError (from the
unguarded `response.meta` read at src/index.ts line 293), not null. -/
theorem c1_null_response_cex :
    (applyProxy cfgWithLogger stTest clientOneF "f" argsPlain envSimNull).methodCalls = 0 ∧
    (applyProxy cfgWithLogger stTest clientOneF "f" argsPlain envSimNull).outcome =
      CallOutcome.err (JsError.typeError "meta") ∧
    (applyProxy cfgWithLogger stTest clientOneF "f" argsPlain envSimNull).outcome ≠
      CallOutcome.ret JsVal.null :=
  ⟨rfl, rfl, fun h => CallOutcome.noConfusion h⟩

/-- Claim C3: when the simulation gate is active (session type "test")
and the path resolves, a non-ok reply from the simulation endpoint makes
the call throw the simulation failure, and the underlying real method is
never invoked — no silent fallback. -/
theorem c3_sim_failure_aborts (cfg : ClientConfig) (st : SessionState) (client : JsVal)
    (propPath : String) (args : List JsVal) (env : CallEnv)
    (hdev : st.sessionType = "test") (hok : env.sim.ok = false)
    (hres : resolvesToCallable client (splitPath propPath) = true) :
    (applyProxy cfg st client propPath args env).outcome =
      CallOutcome.err (JsError.simulationFailed env.sim.status) ∧
    (applyProxy cfg st client propPath args env).methodCalls = 0 ∧
    (applyProxy cfg st client propPath args env).simConsulted = true := by
  rw [resolvesToCallable_eq_walk] at hres
  obtain ⟨fid, hfid⟩ := isFunc_exists _ hres
  rw [applyProxy_simfail_eq cfg st client propPath args env fid hfid hdev hok]
  exact ⟨rfl, rfl, rfl⟩

/-- Claim C3 witness: with the simulation endpoint down (status 500) in
a test session, the call fails with the simulation error and the wrapped
method is not invoked. -/
theorem c3_witness :
    (applyProxy cfgPlain stTest clientOneF "f" argsPlain envSimDown).outcome =
      CallOutcome.err (JsError.simulationFailed 500) ∧
    (applyProxy cfgPlain stTest clientOneF "f" argsPlain envSimDown).methodCalls = 0 := by
  have h := c3_sim_failure_aborts cfgPlain stTest clientOneF "f" argsPlain envSimDown
    rfl rfl rfl
  exact ⟨h.1, h.2.1⟩

/-- Claim C4: the transport outcome of the fire-and-forget logging
dispatches (the primary log endpoint fetch and the Helicone sink fetch)
never changes the caller-visible outcome of a proxied call: the
returned value and the thrown error are identical whether those
deliveries succeed or always fail. -/
theorem c4_logging_isolation (cfg : ClientConfig) (st : SessionState) (client : JsVal)
    (propPath : String) (args : List JsVal) (env : CallEnv) (b1 b2 : Bool) :
    (applyProxy cfg st client propPath args
      { env with logFetchOk := b1, sinkFetchOk := b2 }).outcome =
    (applyProxy cfg st client propPath args env).outcome := by
  unfold applyProxy
  dsimp only
  cases hw : walkGuarded client (splitPath propPath) with
  | func fid =>
    try dsimp only
    by_cases hdev : ((st.sessionType == "test") && !env.sim.ok) = true
    · rw [if_pos hdev, if_pos hdev]
    · rw [if_neg hdev, if_neg hdev]
      by_cases hrun : (if st.sessionType == "test" then env.sim.runModel else true) = true
      · rw [if_pos hrun, if_pos hrun]
        unfold invokeReal
        dsimp only
        cases hw2 : walkRaw client (splitLast (splitPath propPath)).1 with
        | error e => rfl
        | ok methodObject =>
          try dsimp only
          cases hg : rawGet methodObject (splitLast (splitPath propPath)).2 with
          | error e => rfl
          | ok m =>
            try dsimp only
            cases m with
            | func fid2 =>
              try dsimp only
              cases hsf : rawGet (args.headD JsVal.undef) "stream" with
              | error e => rfl
              | ok sflag =>
                try dsimp only
                cases ht : isTruthy sflag with
                | true =>
                  try dsimp only
                  cases hb : env.beh fid2 (args.headD JsVal.undef) with
                  | exn e => rfl
                  | ret v =>
                    cases v with
                    | emitter chunks endAt =>
                      try dsimp only
                      cases hpar : env.parse (chunks.foldl (fun a c => a ++ c) "") with
                      | none => rfl
                      | some v2 =>
                        try dsimp only
                        exact finishLogger_outcome_indep cfg (args.headD JsVal.undef)
                          v2 _ env _ _
                    | undef => rfl
                    | null => rfl
                    | bool b => rfl
                    | num n => rfl
                    | str s => rfl
                    | obj fields => rfl
                    | func fid3 => rfl
                | false =>
                  try dsimp only
                  cases hb : env.beh fid2 (args.headD JsVal.undef) with
                  | exn e => rfl
                  | ret v =>
                    try dsimp only
                    exact finishLogger_outcome_indep cfg (args.headD JsVal.undef)
                      v _ env _ _
            | undef => rfl
            | null => rfl
            | bool b => rfl
            | num n => rfl
            | str s => rfl
            | obj fields => rfl
            | emitter chunks endAt => rfl
      · rw [if_neg hrun, if_neg hrun]
        exact finishLogger_outcome_indep cfg (args.headD JsVal.undef) _ _ env _ _
  | undef => rfl
  | null => rfl
  | bool b => rfl
  | num n => rfl
  | str s => rfl
  | obj fields => rfl
  | emitter chunks endAt => rfl

/-- Claim C5 (amended): for a proxied streaming call (truthy
`params.stream`) whose method returns a chunked emitter and whose
accumulated text parses, the call is invoked once, the text is parsed
exactly once as the concatenation of the chunks in arrival order, the
call resolves with that parsed value, and the instrumentation record's
timing ends at the completion signal's arrival instant — except that
when a logging sink is attached and the parsed value is null/undefined,
the caller receives the TypeError from the unguarded `.meta` read
instead of the parsed value. -/
theorem c5_stream_accumulation (cfg : ClientConfig) (st : SessionState) (client : JsVal)
    (propPath : String) (args : List JsVal) (env : CallEnv) (fid : Nat)
    (sflag : JsVal) (chunks : List String) (endAt : Nat) (v : JsVal)
    (hfid : walkGuarded client (splitPath propPath) = JsVal.func fid)
    (hgate : st.sessionType = "test" → env.sim.ok = true ∧ env.sim.runModel = true)
    (hsf : rawGet (args.headD JsVal.undef) "stream" = Except.ok sflag)
    (htr : isTruthy sflag = true)
    (hbeh : env.beh fid (args.headD JsVal.undef) =
      MethodOutcome.ret (JsVal.emitter chunks endAt))
    (hpar : env.parse (chunks.foldl (fun a c => a ++ c) "") = some v)
    (hmeta : cfg.hasLogger = false ∨ isNullish v = false) :
    (applyProxy cfg st client propPath args env).outcome = CallOutcome.ret v ∧
    (applyProxy cfg st client propPath args env).parseCalls = 1 ∧
    (applyProxy cfg st client propPath args env).methodCalls = 1 ∧
    (applyProxy cfg st client propPath args env).tunerkitLogs.map (fun w => w.timing) =
      [mkTiming env.tInvoke endAt] ∧
    (applyProxy cfg st client propPath args env).tunerkitLogs.map (fun w => w.response) =
      [v] := by
  obtain ⟨parent, hp1, hp2⟩ := walk_split (splitPath propPath) client fid
    (splitPath_ne_nil propPath) hfid
  rw [applyProxy_runModel_eq cfg st client propPath args env fid hfid hgate]
  rw [invokeReal_stream_eq cfg client (splitPath propPath) propPath
    (args.headD JsVal.undef) (sessionCallHeaders st) env
    { emptyResult with simConsulted := (st.sessionType == "test") } parent fid sflag
    chunks endAt v hp1 hp2 hsf htr hbeh hpar]
  refine ⟨?_, ?_, ?_, ?_, ?_⟩
  · exact finishLogger_outcome_ret cfg (args.headD JsVal.undef) v env _ hmeta
  · rw [finishLogger_parseCalls]
    rfl
  · rw [finishLogger_methodCalls]
    rfl
  · rw [finishLogger_tunerkitLogs]
    rfl
  · rw [finishLogger_tunerkitLogs]
    rfl

/-- Claim C5 witness: chunks "ab", "cd" concatenate to "abcd", whose
parse is the resolved value; the parse happens once and the logged
timing ends at the emitter's completion arrival (7000ms). -/
theorem c5_witness :
    (applyProxy cfgPlain stReal clientOneF "f" argsStream envStreamOk).outcome =
      CallOutcome.ret (JsVal.str "v") ∧
    (applyProxy cfgPlain stReal clientOneF "f" argsStream envStreamOk).parseCalls = 1 ∧
    (applyProxy cfgPlain stReal clientOneF "f" argsStream
      envStreamOk).tunerkitLogs.map (fun w => w.timing) = [mkTiming 2000 7000] := by
  have h := c5_stream_accumulation cfgPlain stReal clientOneF "f" argsStream envStreamOk 0
    (JsVal.bool true) ["ab", "cd"] 7000 (JsVal.str "v") rfl
    (fun hcontra => absurd hcontra (by decide)) rfl rfl rfl rfl (Or.inl rfl)
  exact ⟨h.1, h.2.1, h.2.2.2.1⟩

/-- Claim C5 counterexample: chunks "nu", "ll" parse to null; with a
logging sink attached the caller receives a TypeError (from the `.meta`
read), not the parse of the concatenated chunks, so the call's result
does not equal the parsed value. -/
theorem c5_null_parse_cex :
    envStreamNull.parse (["nu", "ll"].foldl (fun a c => a ++ c) "") = some JsVal.null ∧
    (applyProxy cfgWithLogger stReal clientOneF "f" argsStream envStreamNull).outcome =
      CallOutcome.err (JsError.typeError "meta") ∧
    (applyProxy cfgWithLogger stReal clientOneF "f" argsStream envStreamNull).outcome ≠
      CallOutcome.ret JsVal.null :=
  ⟨rfl, rfl, fun h => CallOutcome.noConfusion h⟩

/-- Claim C6 (code evaluation at the failing input): a streaming call
whose accumulated text fails to parse performs the single parse attempt
and then hangs — the promise never settles, no error reaches the caller,
and no instrumentation record is sent. -/
theorem c6_stream_parse_failure_hangs :
    (applyProxy cfgPlain stReal clientOneF "f" argsStream envStreamBad).outcome =
      CallOutcome.hang ∧
    (applyProxy cfgPlain stReal clientOneF "f" argsStream envStreamBad).parseCalls = 1 ∧
    (applyProxy cfgPlain stReal clientOneF "f" argsStream envStreamBad).methodCalls = 1 ∧
    (applyProxy cfgPlain stReal clientOneF "f" argsStream envStreamBad).tunerkitLogs = [] :=
  ⟨rfl, rfl, rfl, rfl⟩

/-- Claim C7: a proxied call resolves its dotted path against the
wrapped client passed in at call time, and it throws the
method-not-found error exactly when some path segment is missing or the
terminal value is not callable. -/
theorem c7_method_resolution_iff (cfg : ClientConfig) (st : SessionState)
    (client : JsVal) (propPath : String) (args : List JsVal) (env : CallEnv) :
    ((applyProxy cfg st client propPath args env).outcome =
      CallOutcome.err (JsError.methodNotFound propPath)) ↔
    resolvesToCallable client (splitPath propPath) = false := by
  rw [resolvesToCallable_eq_walk]
  constructor
  · intro h
    cases hw : walkGuarded client (splitPath propPath) with
    | func fid =>
      exact absurd h (applyProxy_not_mnf cfg st client propPath args env fid propPath hw)
    | undef => rfl
    | null => rfl
    | bool b => rfl
    | num n => rfl
    | str s => rfl
    | obj fields => rfl
    | emitter chunks endAt => rfl
  · intro h
    cases hw : walkGuarded client (splitPath propPath) with
    | func fid =>
      rw [hw] at h
      simp [JsVal.isFunc] at h
    | undef =>
      unfold applyProxy
      rw [hw]
    | null =>
      unfold applyProxy
      rw [hw]
    | bool b =>
      unfold applyProxy
      rw [hw]
    | num n =>
      unfold applyProxy
      rw [hw]
    | str s =>
      unfold applyProxy
      rw [hw]
    | obj fields =>
      unfold applyProxy
      rw [hw]
    | emitter chunks endAt =>
      unfold applyProxy
      rw [hw]

end Tunerkit
